import Mathlib

/-!
# Verification of the AI-validated game contract core

A shallow embedding of the contract orchestrator, the AI jury consensus
module, the local decision engine, the game state store and the daemon-side
marker extraction, translated from the C++ sources
(`ai_contract.cpp`, `ai_jury_module.cpp` / `ai_jury_module.h`,
`ai_service_client.h`, `nft_minting_client.cpp`).

Modelling conventions:
* file contents are `String`s; the on-disk `game_data/` directory is a
  `GameFiles` record of maps keyed by game id (`none` = file absent);
* C++ `double` confidence values are modelled as `ℚ`;
* external effects (daemon socket traffic, the blockchain signer) are
  parameters or outputs, never hidden state;
* per-round state that the claims do not touch (user handles, timestamps,
  the `action_idx` bookkeeping for multiple concurrent requests) is elided:
  a round is modelled as processing one request end-to-end, which is what
  the synchronous `waitForJuryConsensus` loop enforces in the source.
-/

namespace GameEngine

/-! ## Basic character-list search primitives

These model `std::string::find(pat, start)` (`strFind`), the
`while (find(...)) { ... }` loop that locates the *last* occurrence of a
marker (`findLastLoop` / `findLast`), `std::string::find` of a single
character (via `List.findIdx?`), and trimming of surrounding whitespace
(`find_first_not_of (" \t\n\r")` / `find_last_not_of`). -/

/-- Whether `pat` occurs in `s` at index `i` (the full pattern fits). -/
def OccursAt (s pat : List Char) (i : Nat) : Prop :=
  pat.isPrefixOf (s.drop i) = true

instance (s pat : List Char) (i : Nat) : Decidable (OccursAt s pat i) :=
  inferInstanceAs (Decidable (_ = _))

/-- Scan the suffix `l` of the subject string, which starts at index `i`
of it, for the first occurrence of `pat` (structural recursion, so that
concrete searches evaluate). -/
def strFindScan (pat : List Char) : List Char → Nat → Option Nat
  | l, i =>
    if pat.isPrefixOf l then some i
    else
      match l with
      | [] => none
      | _ :: t => strFindScan pat t (i + 1)

/-- `std::string::find(pat, i)`: the first index `≥ i` at which `pat`
occurs in `s`, or `none` (C++ `npos`; a start position beyond the string
finds nothing). -/
def strFind (s pat : List Char) (i : Nat) : Option Nat :=
  if s.length < i then none else strFindScan pat (s.drop i) i

/-- One step of the C++ loop that repeatedly calls `find` to locate the
last occurrence of a marker: `acc` holds the last hit so far, `start` the
next search position, `fuel` bounds the iteration count. -/
def findLastLoop (s pat : List Char) : Nat → Nat → Option Nat → Option Nat
  | 0, _, acc => acc
  | fuel + 1, start, acc =>
    match strFind s pat start with
    | none => acc
    | some i => findLastLoop s pat fuel (i + 1) (some i)

/-- The position of the LAST occurrence of `pat` in `s`
(`ai_service_client.h`: `while ((search_pos = ai_response.find(...)))`). -/
def findLast (s pat : List Char) : Option Nat :=
  findLastLoop s pat (s.length + 1) 0 none

/-- Does `s` contain `pat` as a substring?  Models `find(...) != npos`. -/
def containsSub (s pat : String) : Bool :=
  (strFind s.toList pat.toList 0).isSome

/-- The whitespace set `" \t\n\r"` trimmed by the daemon's extractor. -/
def isTrimChar (c : Char) : Bool :=
  c = ' ' || c = '\t' || c = '\n' || c = '\r'

/-- Trim `" \t\n\r"` from both ends
(`find_first_not_of` / `find_last_not_of` in the C++). -/
def trimBoth (l : List Char) : List Char :=
  ((l.dropWhile isTrimChar).reverse.dropWhile isTrimChar).reverse

/-! ## Daemon-side marker extraction (`AIDaemon::processPlayerAction`)

Post-processing of the model output in `ai_service_client.h`
lines 977-1020: find the LAST `<<BEGIN_PLAYER_STATE>>`, then the first
`<<END_PLAYER_STATE>>` after it; return the trimmed text in between, or the
raw response when no such pair exists. -/

def beginMarker : List Char := "<<BEGIN_PLAYER_STATE>>".toList

def endMarker : List Char := "<<END_PLAYER_STATE>>".toList

/-- The marker extraction performed on every `player_action` response
before it is returned to the contract. -/
def extractPlayerState (aiResponse : String) : String :=
  let s := aiResponse.toList
  match findLast s beginMarker with
  | none => aiResponse
  | some b =>
    match strFind s endMarker (b + beginMarker.length) with
    | none => aiResponse
    | some e =>
      let contentStart := b + beginMarker.length
      String.mk (trimBoth ((s.drop contentStart).take (e - contentStart)))

/-- Declarative reading of "the LAST occurrence of `pat` is at `b`"
(bounded maximality; occurrences of a nonempty pattern never lie beyond
`s.length`). -/
def IsLastOcc (s pat : List Char) (b : Nat) : Prop :=
  OccursAt s pat b ∧ ∀ k, k ≤ s.length → OccursAt s pat k → k ≤ b

/-- Declarative reading of "the FIRST occurrence of `pat` at or after `i`
is at `e`". -/
def IsFirstOccFrom (s pat : List Char) (i e : Nat) : Prop :=
  OccursAt s pat e ∧ i ≤ e ∧ ∀ k, i ≤ k → k < e → ¬ OccursAt s pat k

instance (s pat : List Char) (b : Nat) : Decidable (IsLastOcc s pat b) :=
  inferInstanceAs (Decidable (OccursAt s pat b ∧ ∀ k, k ≤ s.length → OccursAt s pat k → k ≤ b))

instance (s pat : List Char) (i e : Nat) : Decidable (IsFirstOccFrom s pat i e) :=
  inferInstanceAs
    (Decidable (OccursAt s pat e ∧ i ≤ e ∧ ∀ k, i ≤ k → k < e → ¬ OccursAt s pat k))

/-! ## AI jury consensus module (`ai_jury_module.cpp` / `.h`) -/

/-- A jury vote (`AIJury::Vote`). -/
structure Vote where
  requestId : Int
  isValid : Bool
  confidence : ℚ
  reason : String
  juryId : String
  context : String
deriving DecidableEq

/-- Per-request consensus accumulator (`AIJury::RequestState`).  The C++
`tally[2]` array is `tally[0] = invalid`, `tally[1] = valid`; likewise
`confidenceSum`. -/
structure RequestState where
  requestId : Int
  messageType : String
  messageData : String
  context : String
  resolved : Bool := false
  received : Nat := 0
  tallyInvalid : Nat := 0
  tallyValid : Nat := 0
  confSumInvalid : ℚ := 0
  confSumValid : ℚ := 0
deriving DecidableEq

/-- The consensus payload dispatched by `sendConsensusResult`. -/
structure ConsensusResult where
  requestId : Int
  decision : String
  confidence : ℚ
  validVotes : Nat
  invalidVotes : Nat
  totalVotes : Nat
  messageType : String
deriving DecidableEq

/-- The tally/confidence update a single vote performs on its request
(`processVote` lines 469-472). -/
def updateVote (st : RequestState) (v : Vote) : RequestState :=
  { st with
    received := st.received + 1
    tallyValid := if v.isValid then st.tallyValid + 1 else st.tallyValid
    tallyInvalid := if v.isValid then st.tallyInvalid else st.tallyInvalid + 1
    confSumValid := if v.isValid then st.confSumValid + v.confidence else st.confSumValid
    confSumInvalid := if v.isValid then st.confSumInvalid else st.confSumInvalid + v.confidence }

/-- The consensus result computed once enough votes are in
(`processVote` lines 479-484): majority requires strictly more valid than
invalid votes; confidence is averaged over all received votes. -/
def consensusOf (st : RequestState) : ConsensusResult :=
  { requestId := st.requestId
    decision := if st.tallyInvalid < st.tallyValid then "valid" else "invalid"
    confidence := (st.confSumInvalid + st.confSumValid) / st.received
    validVotes := st.tallyValid
    invalidVotes := st.tallyInvalid
    totalVotes := st.received
    messageType := st.messageType }

/-- `AIJuryModule::processVote`: find the request matching the vote's
`requestId` (first match, as `findRequest` scans `activeRequests` in
order); if none, ignore the vote.  Otherwise bump `received` and the
tally, and when `received ≥ peerCount` dispatch a consensus result and
mark the request resolved.  The second component is the consensus result
dispatched by this call, if any. -/
def processVote (reqs : List RequestState) (v : Vote) (peerCount : Nat) :
    List RequestState × Option ConsensusResult :=
  match reqs with
  | [] => ([], none)
  | r :: rest =>
    if r.requestId = v.requestId then
      let r' := updateVote r v
      if peerCount ≤ r'.received then
        ({ r' with resolved := true } :: rest, some (consensusOf r'))
      else
        (r' :: rest, none)
    else
      let p := processVote rest v peerCount
      (r :: p.1, p.2)

/-- The request state after a matching vote has been absorbed. -/
def postVoteState (r : RequestState) (v : Vote) (peerCount : Nat) : RequestState :=
  if peerCount ≤ (updateVote r v).received then
    { updateVote r v with resolved := true }
  else
    updateVote r v

/-! ## Local decision engine (`AIModelDecisionEngine::makeDecision`)

The engine's interaction with the validator daemon is modelled by a
`DaemonEnv`: the outcome of the TCP ping, of parsing the ping reply, and
the shape of the validation response.  `makeDecision` is a direct
translation of `ai_jury_module.cpp` lines 341-402. -/

/-- Outcome of `pingAIDaemon()` plus parsing of the ping reply. -/
inductive PingResult
  /-- `pingAIDaemon()` returned false: no TCP connection. -/
  | noConnection
  /-- The ping reply was not parseable JSON. -/
  | unparseable
  /-- Parsed reply with its `status` string and `model_loaded` flag. -/
  | parsed (status : String) (modelLoaded : Bool)
deriving DecidableEq

/-- Shape of the daemon's reply to a `validate` request. -/
inductive AIResponse
  /-- The reply was not parseable JSON; carries the parser message. -/
  | unparseable (msg : String)
  /-- The reply JSON contains an `error` field. -/
  | errorField (err : String)
  /-- A usable reply: optional `valid` / `confidence` / `reason` fields
  and the raw reply text. -/
  | ok (valid : Option Bool) (confidence : Option ℚ) (reason : Option String) (raw : String)
deriving DecidableEq

/-- The validator daemon as seen by one `makeDecision` call. -/
structure DaemonEnv where
  ping : PingResult
  response : AIResponse
deriving DecidableEq

/-- `AIJury::Decision`. -/
structure Decision where
  isValid : Bool
  confidence : ℚ
  reason : String
  metadata : String
deriving DecidableEq

/-- `AIModelDecisionEngine::makeDecision`.  The initial decision is
`{false, 0, "AI model not available", ""}`; every failure branch
overwrites it with `isValid = true`, `confidence = 0.1` and a
branch-specific reason. -/
def makeDecision (env : DaemonEnv) : Decision :=
  match env.ping with
  | .noConnection =>
    { isValid := true, confidence := 1/10, reason := "AI daemon not running", metadata := "" }
  | .unparseable =>
    { isValid := true, confidence := 1/10, reason := "Failed to parse daemon status", metadata := "" }
  | .parsed status modelLoaded =>
    if status ≠ "ready" ∨ modelLoaded = false then
      { isValid := true, confidence := 1/10
        reason := "AI model not ready (" ++ status ++ ")", metadata := "" }
    else
      match env.response with
      | .errorField err =>
        { isValid := true, confidence := 1/10, reason := "AI error: " ++ err, metadata := "" }
      | .unparseable msg =>
        { isValid := true, confidence := 1/10
          reason := "Failed to parse AI response: " ++ msg, metadata := "" }
      | .ok valid confidence reason raw =>
        { isValid := valid.getD false
          confidence := confidence.getD 0
          reason := reason.getD "AI model not available"
          metadata := raw }

/-- The ping outcome reports a ready daemon with a loaded model. -/
def pingReady : PingResult → Bool
  | .parsed status modelLoaded => status = "ready" && modelLoaded
  | _ => false

/-- The validation reply is usable (parseable and without an `error`
field). -/
def responseUsable : AIResponse → Bool
  | .ok _ _ _ _ => true
  | _ => false

/-- The fallback condition: the validator daemon is absent, not ready, or
its replies cannot be used (every branch of `makeDecision` except a fully
usable `validate` reply from a ready daemon). -/
def IsFallback (env : DaemonEnv) : Prop :=
  (pingReady env.ping && responseUsable env.response) = false

instance (env : DaemonEnv) : Decidable (IsFallback env) :=
  inferInstanceAs (Decidable (_ = _))

/-- The vote `AIJuryModule::processRequest` builds from the local decision
(`ai_jury_module.cpp` lines 431-437) and broadcasts over NPL. -/
def buildVote (requestId : Int) (juryId context : String) (d : Decision) : Vote :=
  { requestId := requestId
    isValid := d.isValid
    confidence := d.confidence
    reason := d.reason
    juryId := juryId
    context := context }

/-! ## Game state store (`GameStateManager`) and the on-disk layout -/

/-- An NFT metadata record, the JSON object written to
`game_data/nft_<gameId>.json` by `ValuableItemExtractor::extractPlayerInventory`
(the wall-clock `completion_time` field is elided) and updated by the
minting paths (`status` becomes `"minted"`, `nft_tokens` is filled in). -/
structure NFTRecord where
  gameId : String
  winningAction : String
  status : String
  finalLocation : String
  finalHealth : String
  finalScore : String
  playerInventory : String
  nftTokens : List String := []
deriving DecidableEq

/-- Pointwise update of a file map (cast-free, so that concrete instances
evaluate). -/
def updateMap {α : Type} (f : String → Option α) (k : String) (v : Option α) :
    String → Option α :=
  fun x => if x = k then v else f x

/-- The `game_data/` directory: world, state and NFT files keyed by game
id; `none` means the file does not exist. -/
structure GameFiles where
  worlds : String → Option String
  states : String → Option String
  nfts : String → Option NFTRecord

/-- `GameStateManager::loadGameState`: file contents, or `""` when the
file cannot be opened. -/
def loadGameState (fs : GameFiles) (gameId : String) : String :=
  (fs.states gameId).getD ""

/-- `GameStateManager::loadGameWorld`. -/
def loadGameWorld (fs : GameFiles) (gameId : String) : String :=
  (fs.worlds gameId).getD ""

/-- `GameStateManager::saveGameState`: overwrite (or create) the state
file. -/
def saveGameState (fs : GameFiles) (gameId content : String) : GameFiles :=
  { fs with states := updateMap fs.states gameId (some content) }

/-- `ValuableItemExtractor` writing `game_data/nft_<gameId>.json`. -/
def saveNftRecord (fs : GameFiles) (gameId : String) (r : NFTRecord) : GameFiles :=
  { fs with nfts := updateMap fs.nfts gameId (some r) }

/-- `GameStateManager::generateGameId`: the game number is one more than
the number of existing games (`listGames().size() + 1`), the suffix hashes
`userPrompt + userIdHex`.  `std::hash<std::string>` is a fixed
implementation-defined function, modelled by the explicit `hasher`
parameter. -/
def generateGameId (hasher : String → Nat) (existingGames : List String)
    (userPrompt userIdHex : String) : String :=
  let gameNumber := existingGames.length + 1
  let h := hasher (userPrompt ++ userIdHex)
  "game_" ++ toString gameNumber ++ "_" ++ toString (h % 100000)

/-! ## Contract orchestrator: the `player_action` path (`ai_contract.cpp`)

`process_game_message` (pre-jury half, lines 1212-1317 and 1481-1499) and
`juryUserResponse` (post-consensus half, lines 1511-1648) for a single
`player_action` request.  The daemon's reply to `processPlayerAction` and
the jury's resolved decision enter as parameters. -/

/-- The per-request record kept in `g_gameActionHandlers`
(`GameActionState` in the C++, minus the user handle and `action_idx`). -/
structure GameActionState where
  gameId : String
  playerAction : String
  oldGameState : String
  newGameState : String
  gameWorld : String
  continueConv : Bool
deriving DecidableEq

/-- Parse the `player_action` payload `"game_id:action[:continue]"`
(`process_game_message` lines 1214-1249).  `none` models the no-colon
case.  In the three-part form the conversation flag is true exactly for
`"true"` or `"1"`. -/
def parsePlayerData (data : String) : Option (String × String × Bool) :=
  let s := data.toList
  match s.findIdx? (fun c => c = ':') with
  | none => none
  | some i =>
    let gameId := String.mk (s.take i)
    let rest := s.drop (i + 1)
    match rest.findIdx? (fun c => c = ':') with
    | none => some (gameId, String.mk rest, false)
    | some j =>
      let continueStr := String.mk (rest.drop (j + 1))
      some (gameId, String.mk (rest.take j), continueStr = "true" || continueStr = "1")

/-- The error heuristic applied to the daemon's `player_action` reply
(`process_game_message` lines 1284-1297): lower-case the text and look for
`"error:"`, `"failed"`, `"invalid"`, `"cannot"`, or emptiness. -/
def isErrorResponse (actionResult : String) : Bool :=
  let lower := String.mk (actionResult.toList.map Char.toLower)
  containsSub lower "error:" || containsSub lower "failed" ||
    containsSub lower "invalid" || containsSub lower "cannot" ||
    actionResult.isEmpty

/-- The pre-jury half of the `player_action` branch: parse the payload,
load world and old state, call the daemon (its reply is the `daemonOut`
parameter; it is consulted only when both files are present), tentatively
save a usable new state, and build the `GameActionState` record that is
pushed to `g_gameActionHandlers` before the jury round starts.  Returns
that record and the file system after the tentative save. -/
def playerActionPhase1 (fs : GameFiles) (data daemonOut : String) :
    GameActionState × GameFiles :=
  match parsePlayerData data with
  | none =>
    ({ gameId := "", playerAction := data, oldGameState := "", newGameState := ""
       gameWorld := "", continueConv := false }, fs)
  | some (gameId, actionText, cont) =>
    let old := loadGameState fs gameId
    let world := loadGameWorld fs gameId
    if old = "" ∨ world = "" then
      ({ gameId := gameId, playerAction := actionText, oldGameState := old
         newGameState := old, gameWorld := world, continueConv := cont }, fs)
    else
      if daemonOut ≠ "" ∧ isErrorResponse daemonOut = false then
        ({ gameId := gameId, playerAction := actionText, oldGameState := old
           newGameState := daemonOut, gameWorld := world, continueConv := cont },
         saveGameState fs gameId daemonOut)
      else
        ({ gameId := gameId, playerAction := actionText, oldGameState := old
           newGameState := old, gameWorld := world, continueConv := cont }, fs)

/-- `ValuableItemExtractor::extractField`: locate `fieldName`, skip spaces
and tabs, take the rest of the line, drop trailing spaces/tabs/CR. -/
def extractField (s pat : List Char) : List Char :=
  match strFind s pat 0 with
  | none => []
  | some pos =>
    let afterName := (s.drop (pos + pat.length)).dropWhile (fun c => c = ' ' || c = '\t')
    let value := afterName.takeWhile (fun c => c ≠ '\n')
    (value.reverse.dropWhile (fun c => c = ' ' || c = '\t' || c = '\r')).reverse

/-- String wrapper for `extractField`. -/
def extractFieldS (gameState fieldName : String) : String :=
  String.mk (extractField gameState.toList fieldName.toList)

/-- `ValuableItemExtractor::extractPlayerInventory`: the NFT metadata
record written for a won game (wall-clock completion time elided). -/
def extractPlayerInventory (gameId gameState playerAction : String) : NFTRecord :=
  { gameId := gameId
    winningAction := playerAction
    status := "won"
    finalLocation := extractFieldS gameState "Player_Location:"
    finalHealth := extractFieldS gameState "Player_Health:"
    finalScore := extractFieldS gameState "Player_Score:"
    playerInventory := extractFieldS gameState "Player_Inventory:" }

/-- The enhanced consensus reply `juryUserResponse` sends for a
`player_action` request (the fields added on top of the jury payload). -/
structure ConsensusReply where
  decision : String
  gameId : String
  playerAction : String
  gameState : String
  actionResult : String
deriving DecidableEq

/-- The post-consensus half (`juryUserResponse`, `validate_game_action`
case, lines 1566-1633): on a valid decision with a nonempty new state,
reply `success` with the new state and — when the committed state contains
`Game_Status: won` — write the NFT record; otherwise reply `failed` with
the old state and revert the state file when both the game id and the old
state are nonempty. -/
def juryConsensusPhase (fs : GameFiles) (st : GameActionState) (validAction : Bool) :
    GameFiles × ConsensusReply :=
  if validAction = true ∧ st.newGameState ≠ "" then
    let fs' :=
      if containsSub st.newGameState "Game_Status: won" then
        saveNftRecord fs st.gameId
          (extractPlayerInventory st.gameId st.newGameState st.playerAction)
      else fs
    (fs', { decision := "valid", gameId := st.gameId, playerAction := st.playerAction
            gameState := st.newGameState, actionResult := "success" })
  else
    let fs' :=
      if st.gameId ≠ "" ∧ st.oldGameState ≠ "" then
        saveGameState fs st.gameId st.oldGameState
      else fs
    (fs', { decision := if validAction then "valid" else "invalid"
            gameId := st.gameId, playerAction := st.playerAction
            gameState := st.oldGameState, actionResult := "failed" })

/-- One full `player_action` round for a single request: the pre-jury half
followed by the jury resolution (`validAction` is the consensus decision)
and the enhanced reply. -/
def playerActionRound (fs : GameFiles) (data daemonOut : String) (validAction : Bool) :
    GameFiles × ConsensusReply :=
  let p := playerActionPhase1 fs data daemonOut
  juryConsensusPhase p.2 p.1 validAction

/-! ## Contract orchestrator: the `mint_nft` path (`ai_contract.cpp`
lines 1357-1471) and `NFTMintingClient::isAlreadyMinted`. -/

/-- `NFTMintingClient::isAlreadyMinted` (`nft_minting_client.cpp`
lines 418-430): status already `"minted"`, or a nonempty `nft_tokens`
array. -/
def isAlreadyMinted (r : NFTRecord) : Bool :=
  r.status = "minted" || !r.nftTokens.isEmpty

/-- Replies of the `mint_nft` branch. -/
inductive MintReply
  /-- An `{"type":"error", ...}` reply with its message. -/
  | errorReply (msg : String)
  /-- The `already_minted` success reply. -/
  | alreadyMinted (gameId : String)
  /-- The `nft_mint_result` reply after calling the external signer. -/
  | mintResult (gameId : String) (success : Bool)
deriving DecidableEq

/-- Is the reply an error reply? -/
def MintReply.isError : MintReply → Bool
  | .errorReply _ => true
  | _ => false

/-- The `mint_nft` branch of `process_game_message`: context check,
read-only check, client-initialization check, NFT file existence check,
already-minted check, then the external minting call.  `mintSuccess`
abstracts the outcome reported by the external signing service.  The third
component lists the game ids for which an external minting call was made;
no branch of this handler modifies `game_data/`. -/
def processMintNft (ctxAvail readonly clientInit : Bool) (fs : GameFiles)
    (gameId : String) (mintSuccess : Bool) : GameFiles × MintReply × List String :=
  if ctxAvail = false then
    (fs, .errorReply "Contract context not available", [])
  else if readonly = false then
    (fs, .errorReply "NFT minting is temporarily disabled - only read-only mode supported", [])
  else if clientInit = false then
    (fs, .errorReply "NFT minting client not initialized", [])
  else
    match fs.nfts gameId with
    | none => (fs, .errorReply ("NFT data file not found for game: " ++ gameId), [])
    | some r =>
      if isAlreadyMinted r then
        (fs, .alreadyMinted gameId, [])
      else
        (fs, .mintResult gameId mintSuccess, [gameId])

/-! ## Spec-side predicate for the six-header check

This definition follows the SPEC's words ("the committed new state MUST
contain all six header lines"), not the code: the code performs no such
check, and the predicate exists to compare the two. -/

/-- Spec-worded predicate: the state block contains all six header lines
required of a committed state. -/
def containsAllSixHeaders (s : String) : Bool :=
  containsSub s "Player_Location" && containsSub s "Player_Health" &&
    containsSub s "Player_Score" && containsSub s "Player_Inventory" &&
    containsSub s "Game_Status" && containsSub s "Turn_Count"

/-! ## Concrete fixtures used by witnesses and counterexamples -/

/-- A valid vote for request 1. -/
def sampleVote : Vote :=
  { requestId := 1, isValid := true, confidence := 1/2, reason := "ok"
    juryId := "jury_100001", context := "game_engine_context" }

/-- A fresh consensus accumulator for request 1. -/
def sampleRequest : RequestState :=
  { requestId := 1, messageType := "validate_game_action", messageData := "ctx", context := "" }

/-- An accumulator for request 7 that has already received one invalid
vote (peer count 2 scenario). -/
def tieRequest : RequestState :=
  { requestId := 7, messageType := "validate_game_action", messageData := "ctx", context := ""
    received := 1, tallyInvalid := 1, confSumInvalid := 1/2 }

/-- A valid vote for request 7. -/
def tieVote : Vote :=
  { requestId := 7, isValid := true, confidence := 9/10, reason := "ok"
    juryId := "jury_100002", context := "" }

/-- A game directory holding one game `g1` with a world and a state file. -/
def sampleFs : GameFiles :=
  { worlds := fun g => if g = "g1" then some "A dark cave world" else none
    states := fun g => if g = "g1" then some "Player_Location: entrance" else none
    nfts := fun _ => none }

/-- An empty game directory. -/
def emptyFs : GameFiles :=
  { worlds := fun _ => none, states := fun _ => none, nfts := fun _ => none }

/-- A daemon reply describing a won game, with all six header lines. -/
def wonState : String :=
  "Player_Location: hall\nPlayer_Health: 9\nPlayer_Score: 5\nPlayer_Inventory: [gem]\nGame_Status: won\nTurn_Count: 3"

/-! ## Helper lemmas -/

theorem updateMap_apply_self {α : Type} (f : String → Option α) (k : String) (v : Option α) :
    updateMap f k v k = v := by
  simp [updateMap]

theorem updateMap_self {α : Type} (f : String → Option α) (k : String) :
    updateMap f k (f k) = f := by
  funext x
  unfold updateMap
  split
  · subst x; rfl
  · rfl

theorem updateMap_idem {α : Type} (f : String → Option α) (k : String) (v w : Option α) :
    updateMap (updateMap f k v) k w = updateMap f k w := by
  funext x
  unfold updateMap
  split <;> rfl

/-- `processVote` behaviour on the first request matching the vote:
the dispatched result is produced exactly when the bumped `received`
count reaches `peerCount`, and the matching request is replaced by
`postVoteState`. -/
theorem processVote_spec (v : Vote) (pc : Nat) :
    ∀ (reqs : List RequestState) (r : RequestState),
      reqs.find? (fun x => decide (x.requestId = v.requestId)) = some r →
      (processVote reqs v pc).2 =
        (if pc ≤ (updateVote r v).received then some (consensusOf (updateVote r v)) else none) ∧
      (processVote reqs v pc).1.find? (fun x => decide (x.requestId = v.requestId)) =
        some (postVoteState r v pc) := by
  intro reqs
  induction reqs with
  | nil => intro r h; simp at h
  | cons a rest ih =>
    intro r h
    by_cases ha : a.requestId = v.requestId
    · rw [List.find?_cons_of_pos _ (by simpa using ha)] at h
      replace h : r = a := by simpa using h.symm
      subst h
      have hid : (updateVote r v).requestId = v.requestId := by
        simpa [updateVote] using ha
      by_cases hpc : pc ≤ (updateVote r v).received
      · constructor
        · simp [processVote, ha, hpc]
        · have : (processVote (r :: rest) v pc).1 =
              { updateVote r v with resolved := true } :: rest := by
            simp [processVote, ha, hpc]
          rw [this, List.find?_cons_of_pos _ (by simpa using hid), postVoteState, if_pos hpc]
      · constructor
        · simp [processVote, ha, hpc]
        · have : (processVote (r :: rest) v pc).1 = updateVote r v :: rest := by
            simp [processVote, ha, hpc]
          rw [this, List.find?_cons_of_pos _ (by simpa using hid), postVoteState, if_neg hpc]
    · rw [List.find?_cons_of_neg _ (by simpa using ha)] at h
      obtain ⟨h2, h1⟩ := ih r h
      have hfst : (processVote (a :: rest) v pc).1 = a :: (processVote rest v pc).1 := by
        simp [processVote, ha]
      have hsnd : (processVote (a :: rest) v pc).2 = (processVote rest v pc).2 := by
        simp [processVote, ha]
      refine ⟨hsnd.trans h2, ?_⟩
      rw [hfst, List.find?_cons_of_neg _ (by simpa using ha)]
      exact h1

/-! ## Claim C2: vote idempotence -/

/-- C2, counterexample: `processVote` performs no duplicate or
already-resolved check.  Feeding the same vote (same `juryId`,
`requestId`) twice to a fresh request with peer count 2 bumps `received`
from 1 to 2 and the valid tally from 1 to 2, and resolves the request —
none of which happens after a single delivery; and a third delivery of
the same vote, after the request is already resolved, dispatches a second
consensus result instead of being ignored. -/
theorem c2_duplicate_vote_counterexample :
    ((processVote [sampleRequest] sampleVote 2).1.map RequestState.received = [1] ∧
      (processVote (processVote [sampleRequest] sampleVote 2).1 sampleVote 2).1.map
        RequestState.received = [2]) ∧
    ((processVote [sampleRequest] sampleVote 2).1.map RequestState.tallyValid = [1] ∧
      (processVote (processVote [sampleRequest] sampleVote 2).1 sampleVote 2).1.map
        RequestState.tallyValid = [2]) ∧
    ((processVote [sampleRequest] sampleVote 2).1.map RequestState.resolved = [false] ∧
      (processVote (processVote [sampleRequest] sampleVote 2).1 sampleVote 2).1.map
        RequestState.resolved = [true]) ∧
    ((processVote (processVote [sampleRequest] sampleVote 2).1 sampleVote 2).2.isSome = true ∧
      (processVote (processVote (processVote [sampleRequest] sampleVote 2).1 sampleVote 2).1
        sampleVote 2).2.isSome = true) := by
  decide

/-- C2 (amended): `processVote` counts every vote whose `requestId`
matches an active request — duplicates and votes for already-resolved
requests included.  Each delivery increments `received` and the matching
tally entry of the first matching request, and a consensus result is
dispatched (again) exactly when the bumped count reaches `peerCount`.
Only a vote matching no active request is ignored. -/
theorem c2_duplicate_votes_are_counted (reqs : List RequestState) (v : Vote) (pc : Nat)
    (r : RequestState)
    (h : reqs.find? (fun x => decide (x.requestId = v.requestId)) = some r) :
    ∃ r', (processVote reqs v pc).1.find? (fun x => decide (x.requestId = v.requestId)) =
        some r' ∧
      r'.received = r.received + 1 ∧
      (v.isValid = true → r'.tallyValid = r.tallyValid + 1 ∧ r'.tallyInvalid = r.tallyInvalid) ∧
      (v.isValid = false → r'.tallyInvalid = r.tallyInvalid + 1 ∧ r'.tallyValid = r.tallyValid) ∧
      ((processVote reqs v pc).2.isSome ↔ pc ≤ r.received + 1) := by
  obtain ⟨h2, h1⟩ := processVote_spec v pc reqs r h
  refine ⟨postVoteState r v pc, h1, ?_, ?_, ?_, ?_⟩
  · unfold postVoteState; split <;> simp [updateVote]
  · intro hv; unfold postVoteState; split <;> simp [updateVote, hv]
  · intro hv; unfold postVoteState; split <;> simp [updateVote, hv]
  · have hrcv : (updateVote r v).received = r.received + 1 := rfl
    rw [h2, hrcv]
    split <;> simp_all

/-- C2 witness: the amended statement instantiated on a fresh request
with peer count 5. -/
theorem c2_duplicate_votes_are_counted_witness :
    [sampleRequest].find? (fun x => decide (x.requestId = sampleVote.requestId)) =
      some sampleRequest ∧
    (∃ r', (processVote [sampleRequest] sampleVote 5).1.find?
        (fun x => decide (x.requestId = sampleVote.requestId)) = some r' ∧
      r'.received = sampleRequest.received + 1 ∧
      (sampleVote.isValid = true →
        r'.tallyValid = sampleRequest.tallyValid + 1 ∧
        r'.tallyInvalid = sampleRequest.tallyInvalid) ∧
      (sampleVote.isValid = false →
        r'.tallyInvalid = sampleRequest.tallyInvalid + 1 ∧
        r'.tallyValid = sampleRequest.tallyValid) ∧
      ((processVote [sampleRequest] sampleVote 5).2.isSome ↔
        5 ≤ sampleRequest.received + 1)) :=
  ⟨by decide, c2_duplicate_votes_are_counted [sampleRequest] sampleVote 5 sampleRequest (by decide)⟩

/-! ## Claim C4: strict-majority resolution and the tie-break -/

/-- C4: when the vote that completes the count arrives
(`received ≥ peerCount` after the bump), a consensus result is dispatched
and its decision is `"valid"` exactly when the valid tally strictly
exceeds the invalid tally; an equal split therefore resolves
`"invalid"`. -/
theorem c4_consensus_strict_majority (reqs : List RequestState) (v : Vote) (pc : Nat)
    (r : RequestState)
    (hfind : reqs.find? (fun x => decide (x.requestId = v.requestId)) = some r)
    (hreach : pc ≤ (updateVote r v).received) :
    ∃ c, (processVote reqs v pc).2 = some c ∧
      (c.decision = "valid" ↔ (updateVote r v).tallyInvalid < (updateVote r v).tallyValid) ∧
      ((updateVote r v).tallyInvalid = (updateVote r v).tallyValid → c.decision = "invalid") := by
  obtain ⟨h2, -⟩ := processVote_spec v pc reqs r hfind
  rw [h2, if_pos hreach]
  refine ⟨consensusOf (updateVote r v), rfl, ?_, ?_⟩
  · constructor
    · intro hdec
      by_contra hlt
      have hinv : (consensusOf (updateVote r v)).decision = "invalid" := by
        simp [consensusOf, if_neg hlt]
      rw [hinv] at hdec
      exact absurd hdec (by decide)
    · intro hlt
      simp [consensusOf, if_pos hlt]
  · intro heq
    have hnlt : ¬ (updateVote r v).tallyInvalid < (updateVote r v).tallyValid := by omega
    simp [consensusOf, if_neg hnlt]

/-- C4 witness: peers = 2, one invalid vote already tallied, then a valid
vote arrives — a 1/1 split — and the dispatched decision is
`"invalid"`. -/
theorem c4_consensus_strict_majority_witness :
    [tieRequest].find? (fun x => decide (x.requestId = tieVote.requestId)) = some tieRequest ∧
    2 ≤ (updateVote tieRequest tieVote).received ∧
    (∃ c, (processVote [tieRequest] tieVote 2).2 = some c ∧
      (c.decision = "valid" ↔
        (updateVote tieRequest tieVote).tallyInvalid <
          (updateVote tieRequest tieVote).tallyValid) ∧
      ((updateVote tieRequest tieVote).tallyInvalid =
          (updateVote tieRequest tieVote).tallyValid → c.decision = "invalid")) ∧
    (processVote [tieRequest] tieVote 2).2.map ConsensusResult.decision = some "invalid" := by
  refine ⟨rfl, by decide, ?_, by decide⟩
  exact c4_consensus_strict_majority [tieRequest] tieVote 2 tieRequest rfl (by decide)

/-! ## Claim C6: the decision-engine fallback -/

/-- C6, counterexample: when the daemon connection fails, the fallback
decision's reason is `"AI daemon not running"`, not `"AI not ready"` (the
reason string differs per failure branch and never equals the one the
claim states). -/
theorem c6_fallback_reason_counterexample :
    makeDecision { ping := .noConnection, response := .unparseable "" } =
      { isValid := true, confidence := 1/10, reason := "AI daemon not running"
        metadata := "" } ∧
    "AI daemon not running" ≠ "AI not ready" :=
  ⟨rfl, by decide⟩

/-- C6 (amended): whenever the validator daemon is absent, not ready, or
its response cannot be used, the decision engine returns a fallback
decision with `isValid = true` and `confidence = 0.1` (the reason string
names the specific failure), so the locally broadcast vote in that
condition always carries `valid = true, confidence = 0.1`. -/
theorem c6_fallback_decision_valid_low_confidence (env : DaemonEnv) (h : IsFallback env)
    (requestId : Int) (juryId context : String) :
    (makeDecision env).isValid = true ∧ (makeDecision env).confidence = 1/10 ∧
    (buildVote requestId juryId context (makeDecision env)).isValid = true ∧
    (buildVote requestId juryId context (makeDecision env)).confidence = 1/10 := by
  rcases env with ⟨ping, resp⟩
  rcases ping with _ | _ | ⟨s, m⟩
  · simp [makeDecision, buildVote]
  · simp [makeDecision, buildVote]
  · by_cases hc : s ≠ "ready" ∨ m = false
    · simp only [makeDecision]
      rw [if_pos hc]
      simp [buildVote]
    · push_neg at hc
      obtain ⟨hs, hm⟩ := hc
      subst hs
      have hm' : m = true := by
        cases m
        · exact absurd rfl hm
        · rfl
      subst hm'
      unfold IsFallback pingReady responseUsable at h
      rcases resp with msg | err | ⟨valid, confidence, reason, raw⟩
      · simp [makeDecision, buildVote]
      · simp [makeDecision, buildVote]
      · simp at h

/-- C6 witness: the amended statement at the daemon-absent environment. -/
theorem c6_fallback_decision_valid_low_confidence_witness :
    IsFallback { ping := .noConnection, response := .unparseable "" } ∧
    ((makeDecision { ping := .noConnection, response := .unparseable "" }).isValid = true ∧
      (makeDecision { ping := .noConnection, response := .unparseable "" }).confidence = 1/10 ∧
      (buildVote 0 "jury_100001" "ctx"
        (makeDecision { ping := .noConnection, response := .unparseable "" })).isValid = true ∧
      (buildVote 0 "jury_100001" "ctx"
        (makeDecision { ping := .noConnection, response := .unparseable "" })).confidence
        = 1/10) :=
  ⟨by decide,
    c6_fallback_decision_valid_low_confidence
      { ping := .noConnection, response := .unparseable "" } (by decide) 0 "jury_100001" "ctx"⟩

/-! ## Claim C7: determinism of `generateGameId` -/

/-- C7: `generateGameId` is a pure function of the creation prompt, the
user key hex and the count of pre-existing games: two invocations that
agree on those three inputs (and on the process-wide `std::hash`
implementation) return the same game id, whatever the existing games
themselves are. -/
theorem c7_generateGameId_deterministic (hasher : String → Nat)
    (games1 games2 : List String) (userPrompt userIdHex : String)
    (h : games1.length = games2.length) :
    generateGameId hasher games1 userPrompt userIdHex =
      generateGameId hasher games2 userPrompt userIdHex := by
  simp [generateGameId, h]

/-- C7 witness: two directories with one (different) existing game each
give the same id for the same prompt and user key. -/
theorem c7_generateGameId_deterministic_witness :
    (["alpha"] : List String).length = (["beta"] : List String).length ∧
    generateGameId String.length ["alpha"] "a cave survival game" "ed25519_aa" =
      generateGameId String.length ["beta"] "a cave survival game" "ed25519_aa" :=
  ⟨rfl, c7_generateGameId_deterministic String.length ["alpha"] ["beta"]
    "a cave survival game" "ed25519_aa" rfl⟩

/-! ## Claim C9: `mint_nft` is refused outside read-only rounds -/

/-- C9: in a non-readonly (consensus) round, the `mint_nft` branch
replies with an error, makes no call to the external signing service, and
leaves every file — NFT records included — untouched, whatever the other
conditions are. -/
theorem c9_mint_refused_outside_readonly (ctxAvail clientInit : Bool) (fs : GameFiles)
    (gameId : String) (mintSuccess : Bool) :
    (processMintNft ctxAvail false clientInit fs gameId mintSuccess).2.1.isError = true ∧
    (processMintNft ctxAvail false clientInit fs gameId mintSuccess).1 = fs ∧
    (processMintNft ctxAvail false clientInit fs gameId mintSuccess).2.2 = [] := by
  cases ctxAvail <;> simp [processMintNft, MintReply.isError]

/-! ## Orchestrator helper lemmas -/

/-- A nonempty `loadGameState` means the state file exists with exactly
that content. -/
theorem states_eq_some_of_load_ne (fs : GameFiles) (gameId : String)
    (h : loadGameState fs gameId ≠ "") :
    fs.states gameId = some (loadGameState fs gameId) := by
  unfold loadGameState at h ⊢
  cases hs : fs.states gameId with
  | none => rw [hs] at h; simp at h
  | some s => simp [hs]

/-- `playerActionPhase1` on the commit path: both files present and a
usable daemon reply — the new state is saved tentatively. -/
theorem playerActionPhase1_commit (fs : GameFiles) (data daemonOut gameId actionText : String)
    (cont : Bool)
    (hparse : parsePlayerData data = some (gameId, actionText, cont))
    (hold : loadGameState fs gameId ≠ "")
    (hworld : loadGameWorld fs gameId ≠ "")
    (hout : daemonOut ≠ "") (herr : isErrorResponse daemonOut = false) :
    playerActionPhase1 fs data daemonOut =
      ({ gameId := gameId, playerAction := actionText
         oldGameState := loadGameState fs gameId
         newGameState := daemonOut, gameWorld := loadGameWorld fs gameId
         continueConv := cont },
       saveGameState fs gameId daemonOut) := by
  unfold playerActionPhase1
  rw [hparse]
  dsimp only
  rw [if_neg (by push_neg; exact ⟨hold, hworld⟩), if_pos ⟨hout, herr⟩]

/-- `playerActionPhase1` when the world or state file is missing: nothing
is written; the stored transition keeps the (possibly empty) old state as
the new state. -/
theorem playerActionPhase1_missing (fs : GameFiles) (data daemonOut gameId actionText : String)
    (cont : Bool)
    (hparse : parsePlayerData data = some (gameId, actionText, cont))
    (hmissing : loadGameState fs gameId = "" ∨ loadGameWorld fs gameId = "") :
    playerActionPhase1 fs data daemonOut =
      ({ gameId := gameId, playerAction := actionText
         oldGameState := loadGameState fs gameId
         newGameState := loadGameState fs gameId
         gameWorld := loadGameWorld fs gameId, continueConv := cont }, fs) := by
  unfold playerActionPhase1
  rw [hparse]
  dsimp only
  rw [if_pos hmissing]

/-- Neither half of the `player_action` path ever touches `nfts` except
the won-commit branch; in particular `playerActionPhase1` preserves it. -/
theorem playerActionPhase1_nfts (fs : GameFiles) (data daemonOut : String) :
    (playerActionPhase1 fs data daemonOut).2.nfts = fs.nfts := by
  unfold playerActionPhase1
  cases hpd : parsePlayerData data with
  | none => rfl
  | some t =>
    obtain ⟨g, a, c⟩ := t
    dsimp only
    split
    · rfl
    · split
      · simp [saveGameState]
      · rfl

/-! ## Claim C1: invalid resolution reverts the tentative save -/

/-- C1: a `player_action` whose tentative new state was saved (both files
present, usable daemon reply, game id nonempty — every id the engine
creates is) and whose jury consensus resolves invalid is reverted: the
state file at the end of the round is byte-for-byte the state file at the
start of the round, and the reply carries `action_result = "failed"` with
the old state. -/
theorem c1_invalid_resolution_reverts_state (fs : GameFiles)
    (data daemonOut gameId actionText : String) (cont : Bool)
    (hparse : parsePlayerData data = some (gameId, actionText, cont))
    (hgid : gameId ≠ "")
    (hold : loadGameState fs gameId ≠ "")
    (hworld : loadGameWorld fs gameId ≠ "")
    (hout : daemonOut ≠ "") (herr : isErrorResponse daemonOut = false) :
    (playerActionPhase1 fs data daemonOut).2.states gameId = some daemonOut ∧
    (playerActionRound fs data daemonOut false).1.states = fs.states ∧
    fs.states gameId = some (loadGameState fs gameId) ∧
    (playerActionRound fs data daemonOut false).2.actionResult = "failed" ∧
    (playerActionRound fs data daemonOut false).2.gameState = loadGameState fs gameId := by
  have hsome := states_eq_some_of_load_ne fs gameId hold
  have hphase1 := playerActionPhase1_commit fs data daemonOut gameId actionText cont
    hparse hold hworld hout herr
  have hround : playerActionRound fs data daemonOut false =
      (saveGameState (saveGameState fs gameId daemonOut) gameId (loadGameState fs gameId),
       { decision := "invalid", gameId := gameId, playerAction := actionText
         gameState := loadGameState fs gameId, actionResult := "failed" }) := by
    unfold playerActionRound
    rw [hphase1]
    unfold juryConsensusPhase
    rw [if_neg (by simp), if_pos ⟨hgid, hold⟩]
    rfl
  refine ⟨?_, ?_, hsome, ?_, ?_⟩
  · rw [hphase1]
    exact updateMap_apply_self fs.states gameId (some daemonOut)
  · rw [hround]
    show updateMap (updateMap fs.states gameId (some daemonOut)) gameId
      (some (loadGameState fs gameId)) = fs.states
    rw [updateMap_idem, ← hsome]
    exact updateMap_self fs.states gameId
  · rw [hround]
  · rw [hround]

/-- C1 witness: game `g1` of `sampleFs`, action `"move north"`, a usable
daemon reply, jury resolves invalid. -/
theorem c1_invalid_resolution_reverts_state_witness :
    (parsePlayerData "g1:move north:true" = some ("g1", "move north", true) ∧
      ("g1" : String) ≠ "" ∧
      loadGameState sampleFs "g1" ≠ "" ∧
      loadGameWorld sampleFs "g1" ≠ "" ∧
      ("Player_Location: tunnel" : String) ≠ "" ∧
      isErrorResponse "Player_Location: tunnel" = false) ∧
    ((playerActionPhase1 sampleFs "g1:move north:true" "Player_Location: tunnel").2.states "g1" =
        some "Player_Location: tunnel" ∧
      (playerActionRound sampleFs "g1:move north:true" "Player_Location: tunnel" false).1.states =
        sampleFs.states ∧
      sampleFs.states "g1" = some (loadGameState sampleFs "g1") ∧
      (playerActionRound sampleFs "g1:move north:true" "Player_Location: tunnel"
        false).2.actionResult = "failed" ∧
      (playerActionRound sampleFs "g1:move north:true" "Player_Location: tunnel"
        false).2.gameState = loadGameState sampleFs "g1") :=
  ⟨⟨by decide, by decide, by decide, by decide, by decide, by decide⟩,
    c1_invalid_resolution_reverts_state sampleFs "g1:move north:true" "Player_Location: tunnel"
      "g1" "move north" true (by decide) (by decide) (by decide) (by decide) (by decide)
      (by decide)⟩

/-! ## Claim C3: the six-header check -/

/-- C3, counterexample: the orchestrator performs no header check on a
VALID resolution.  The daemon reply `"A mysterious chamber"` carries none
of the six header lines, yet after a valid consensus it is committed as
the game state and the reply says `action_result = "success"` — it is not
treated as INVALID retroactively. -/
theorem c3_headerless_state_committed_counterexample :
    (playerActionRound sampleFs "g1:go" "A mysterious chamber" true).1.states "g1" =
      some "A mysterious chamber" ∧
    (playerActionRound sampleFs "g1:go" "A mysterious chamber" true).2.actionResult =
      "success" ∧
    containsAllSixHeaders "A mysterious chamber" = false := by
  refine ⟨by decide, by decide, by decide⟩

/-- C3 (amended): for every `player_action` that resolves VALID, the
committed new state is whatever nonempty, error-keyword-free block the
daemon returned; the orchestrator performs no six-header check, so a
block missing those headers is committed all the same. -/
theorem c3_valid_resolution_commits_any_usable_state (fs : GameFiles)
    (data daemonOut gameId actionText : String) (cont : Bool)
    (hparse : parsePlayerData data = some (gameId, actionText, cont))
    (hold : loadGameState fs gameId ≠ "")
    (hworld : loadGameWorld fs gameId ≠ "")
    (hout : daemonOut ≠ "") (herr : isErrorResponse daemonOut = false) :
    (playerActionRound fs data daemonOut true).1.states gameId = some daemonOut ∧
    (playerActionRound fs data daemonOut true).2.actionResult = "success" ∧
    (playerActionRound fs data daemonOut true).2.gameState = daemonOut := by
  have hphase1 := playerActionPhase1_commit fs data daemonOut gameId actionText cont
    hparse hold hworld hout herr
  unfold playerActionRound
  rw [hphase1]
  unfold juryConsensusPhase
  rw [if_pos ⟨rfl, hout⟩]
  dsimp only
  split
  · refine ⟨?_, rfl, rfl⟩
    show (saveNftRecord (saveGameState fs gameId daemonOut) _ _).states gameId = some daemonOut
    simp [saveNftRecord, saveGameState, updateMap_apply_self]
  · exact ⟨updateMap_apply_self fs.states gameId (some daemonOut), rfl, rfl⟩

/-- C3 witness: the amended statement on game `g1` with a headerless but
usable daemon reply. -/
theorem c3_valid_resolution_commits_any_usable_state_witness :
    (parsePlayerData "g1:go" = some ("g1", "go", false) ∧
      loadGameState sampleFs "g1" ≠ "" ∧
      loadGameWorld sampleFs "g1" ≠ "" ∧
      ("A mysterious chamber" : String) ≠ "" ∧
      isErrorResponse "A mysterious chamber" = false) ∧
    ((playerActionRound sampleFs "g1:go" "A mysterious chamber" true).1.states "g1" =
        some "A mysterious chamber" ∧
      (playerActionRound sampleFs "g1:go" "A mysterious chamber" true).2.actionResult =
        "success" ∧
      (playerActionRound sampleFs "g1:go" "A mysterious chamber" true).2.gameState =
        "A mysterious chamber") :=
  ⟨⟨by decide, by decide, by decide, by decide, by decide⟩,
    c3_valid_resolution_commits_any_usable_state sampleFs "g1:go" "A mysterious chamber"
      "g1" "go" false (by decide) (by decide) (by decide) (by decide) (by decide)⟩

/-! ## Claim C5: the NFT trigger on a won state -/

/-- C5: when the committed state after a VALID `player_action` contains
`Game_Status: won`, an NFT record for the game is written in that round,
with status `"won"` and final location / health / score / inventory
extracted from the winning state; and, conversely, the `player_action`
round writes an NFT record only when it committed a state (reply
`success`) containing `Game_Status: won`. -/
theorem c5_won_state_triggers_nft (fs : GameFiles)
    (data daemonOut gameId actionText : String) (cont : Bool)
    (hparse : parsePlayerData data = some (gameId, actionText, cont))
    (hold : loadGameState fs gameId ≠ "")
    (hworld : loadGameWorld fs gameId ≠ "")
    (hout : daemonOut ≠ "") (herr : isErrorResponse daemonOut = false) :
    (containsSub daemonOut "Game_Status: won" = true →
      ∃ r, (playerActionRound fs data daemonOut true).1.nfts gameId = some r ∧
        r.status = "won" ∧
        r.finalLocation = extractFieldS daemonOut "Player_Location:" ∧
        r.finalHealth = extractFieldS daemonOut "Player_Health:" ∧
        r.finalScore = extractFieldS daemonOut "Player_Score:" ∧
        r.playerInventory = extractFieldS daemonOut "Player_Inventory:" ∧
        r.winningAction = actionText ∧ r.gameId = gameId) ∧
    (∀ (fs' : GameFiles) (data' daemonOut' : String) (dec : Bool),
      (playerActionRound fs' data' daemonOut' dec).1.nfts ≠ fs'.nfts →
      (playerActionRound fs' data' daemonOut' dec).2.actionResult = "success" ∧
      containsSub ((playerActionRound fs' data' daemonOut' dec).2.gameState)
        "Game_Status: won" = true) := by
  constructor
  · intro hwon
    have hphase1 := playerActionPhase1_commit fs data daemonOut gameId actionText cont
      hparse hold hworld hout herr
    refine ⟨extractPlayerInventory gameId daemonOut actionText, ?_, rfl, rfl, rfl, rfl, rfl,
      rfl, rfl⟩
    unfold playerActionRound
    rw [hphase1]
    unfold juryConsensusPhase
    rw [if_pos ⟨rfl, hout⟩]
    dsimp only
    rw [if_pos hwon]
    exact updateMap_apply_self _ gameId _
  · intro fs' data' daemonOut' dec hne
    have hnfts1 := playerActionPhase1_nfts fs' data' daemonOut'
    unfold playerActionRound at hne ⊢
    unfold juryConsensusPhase at hne ⊢
    by_cases hv : dec = true ∧ (playerActionPhase1 fs' data' daemonOut').1.newGameState ≠ ""
    · rw [if_pos hv] at hne ⊢
      by_cases hw : containsSub (playerActionPhase1 fs' data' daemonOut').1.newGameState
          "Game_Status: won" = true
      · exact ⟨rfl, hw⟩
      · exfalso
        apply hne
        dsimp only
        rw [if_neg hw]
        exact hnfts1
    · exfalso
      apply hne
      rw [if_neg hv]
      dsimp only
      split
      · simpa [saveGameState] using hnfts1
      · exact hnfts1

/-- C5 witness: game `g1`, a winning daemon reply with all header fields,
jury resolves valid. -/
theorem c5_won_state_triggers_nft_witness :
    (parsePlayerData "g1:open the chest" = some ("g1", "open the chest", false) ∧
      loadGameState sampleFs "g1" ≠ "" ∧
      loadGameWorld sampleFs "g1" ≠ "" ∧
      wonState ≠ "" ∧
      isErrorResponse wonState = false ∧
      containsSub wonState "Game_Status: won" = true) ∧
    (∃ r, (playerActionRound sampleFs "g1:open the chest" wonState true).1.nfts "g1" =
        some r ∧
      r.status = "won" ∧
      r.finalLocation = extractFieldS wonState "Player_Location:" ∧
      r.finalHealth = extractFieldS wonState "Player_Health:" ∧
      r.finalScore = extractFieldS wonState "Player_Score:" ∧
      r.playerInventory = extractFieldS wonState "Player_Inventory:" ∧
      r.winningAction = "open the chest" ∧ r.gameId = "g1") :=
  ⟨⟨by decide, by decide, by decide, by decide, by decide, by decide⟩,
    (c5_won_state_triggers_nft sampleFs "g1:open the chest" wonState "g1" "open the chest"
      false (by decide) (by decide) (by decide) (by decide) (by decide)).1 (by decide)⟩

/-! ## Claim C10: missing game files still go through the jury -/

/-- C10: a `player_action` whose game has no stored world file or no
stored state file is not rejected with a "game not found" error: the
stored transition keeps the (possibly empty) old state as the new state
(both empty when the state file is missing), the request goes through the
jury, the reply is the enhanced consensus reply carrying the jury's
decision — with `action_result = "failed"` whenever the new state is
empty — and the game's state file is neither created nor modified. -/
theorem c10_missing_files_still_consensus (fs : GameFiles)
    (data daemonOut gameId actionText : String) (cont : Bool) (validAction : Bool)
    (hparse : parsePlayerData data = some (gameId, actionText, cont))
    (hmissing : loadGameState fs gameId = "" ∨ loadGameWorld fs gameId = "") :
    ((playerActionPhase1 fs data daemonOut).1.oldGameState = loadGameState fs gameId ∧
      (playerActionPhase1 fs data daemonOut).1.newGameState =
        (playerActionPhase1 fs data daemonOut).1.oldGameState) ∧
    (loadGameState fs gameId = "" →
      (playerActionPhase1 fs data daemonOut).1.oldGameState = "" ∧
      (playerActionPhase1 fs data daemonOut).1.newGameState = "") ∧
    (playerActionRound fs data daemonOut validAction).1.states = fs.states ∧
    ((playerActionPhase1 fs data daemonOut).1.newGameState = "" →
      (playerActionRound fs data daemonOut validAction).2.actionResult = "failed") ∧
    (playerActionRound fs data daemonOut validAction).2.decision =
      (if validAction then "valid" else "invalid") := by
  have hphase1 := playerActionPhase1_missing fs data daemonOut gameId actionText cont
    hparse hmissing
  have hround : playerActionRound fs data daemonOut validAction =
      juryConsensusPhase fs
        { gameId := gameId, playerAction := actionText
          oldGameState := loadGameState fs gameId
          newGameState := loadGameState fs gameId
          gameWorld := loadGameWorld fs gameId, continueConv := cont } validAction := by
    unfold playerActionRound
    rw [hphase1]
  refine ⟨⟨by rw [hphase1], by rw [hphase1]⟩, ?_, ?_, ?_, ?_⟩
  · intro h0
    rw [hphase1]
    exact ⟨h0, h0⟩
  · rw [hround]
    unfold juryConsensusPhase
    by_cases hv : validAction = true ∧
        ({ gameId := gameId, playerAction := actionText
           oldGameState := loadGameState fs gameId
           newGameState := loadGameState fs gameId
           gameWorld := loadGameWorld fs gameId, continueConv := cont } :
          GameActionState).newGameState ≠ ""
    · rw [if_pos hv]
      dsimp only
      split
      · rfl
      · rfl
    · rw [if_neg hv]
      dsimp only
      split
      · rename_i hguard
        obtain ⟨hgid, holdne⟩ := hguard
        show updateMap fs.states gameId (some (loadGameState fs gameId)) = fs.states
        rw [← states_eq_some_of_load_ne fs gameId holdne]
        exact updateMap_self fs.states gameId
      · rfl
  · intro hnew
    rw [hphase1] at hnew
    dsimp only at hnew
    rw [hround]
    unfold juryConsensusPhase
    rw [if_neg (by simp [hnew])]
  · rw [hround]
    unfold juryConsensusPhase
    by_cases hv : validAction = true ∧
        ({ gameId := gameId, playerAction := actionText
           oldGameState := loadGameState fs gameId
           newGameState := loadGameState fs gameId
           gameWorld := loadGameWorld fs gameId, continueConv := cont } :
          GameActionState).newGameState ≠ ""
    · rw [if_pos hv]
      dsimp only
      simp [hv.1]
    · rw [if_neg hv]

/-- C10 witness: an unknown game id on an empty game directory, jury
resolves valid — the reply is still the consensus reply with
`action_result = "failed"` and nothing is written. -/
theorem c10_missing_files_still_consensus_witness :
    (parsePlayerData "gX:jump:false" = some ("gX", "jump", false) ∧
      (loadGameState emptyFs "gX" = "" ∨ loadGameWorld emptyFs "gX" = "")) ∧
    (((playerActionPhase1 emptyFs "gX:jump:false" "some output").1.oldGameState =
        loadGameState emptyFs "gX" ∧
      (playerActionPhase1 emptyFs "gX:jump:false" "some output").1.newGameState =
        (playerActionPhase1 emptyFs "gX:jump:false" "some output").1.oldGameState) ∧
    (loadGameState emptyFs "gX" = "" →
      (playerActionPhase1 emptyFs "gX:jump:false" "some output").1.oldGameState = "" ∧
      (playerActionPhase1 emptyFs "gX:jump:false" "some output").1.newGameState = "") ∧
    (playerActionRound emptyFs "gX:jump:false" "some output" true).1.states =
      emptyFs.states ∧
    ((playerActionPhase1 emptyFs "gX:jump:false" "some output").1.newGameState = "" →
      (playerActionRound emptyFs "gX:jump:false" "some output" true).2.actionResult =
        "failed") ∧
    (playerActionRound emptyFs "gX:jump:false" "some output" true).2.decision =
      (if true then "valid" else "invalid")) :=
  ⟨⟨by decide, by decide⟩,
    c10_missing_files_still_consensus emptyFs "gX:jump:false" "some output" "gX" "jump"
      false true (by decide) (by decide)⟩

/-! ## String-search lemmas for claim C8 -/

/-- A nonempty pattern can only occur strictly inside the string. -/
theorem occursAt_lt_length {s pat : List Char} (hpat : pat ≠ []) {k : Nat}
    (h : OccursAt s pat k) : k < s.length := by
  unfold OccursAt at h
  have hpre : pat <+: s.drop k := List.isPrefixOf_iff_prefix.mp h
  have hlen := hpre.length_le
  rw [List.length_drop] at hlen
  have hpos : 0 < pat.length := List.length_pos.mpr hpat
  omega

/-- If the scan starting at index `i` (over the suffix `s.drop i`) finds
`j`, then `pat` occurs at `j`, `j ≥ i`, and at no index in between. -/
theorem strFindScan_some {s pat : List Char} :
    ∀ (l : List Char) (i j : Nat), l = s.drop i → strFindScan pat l i = some j →
      OccursAt s pat j ∧ i ≤ j ∧ ∀ k, i ≤ k → k < j → ¬ OccursAt s pat k := by
  intro l
  induction l with
  | nil =>
    intro i j hl h
    unfold strFindScan at h
    split at h
    · injection h with h
      subst j
      refine ⟨?_, le_refl i, fun k hk hkj => absurd (lt_of_le_of_lt hk hkj) (lt_irrefl i)⟩
      unfold OccursAt
      rw [← hl]
      assumption
    · simp at h
  | cons c t ih =>
    intro i j hl h
    unfold strFindScan at h
    split at h
    · injection h with h
      subst j
      refine ⟨?_, le_refl i, fun k hk hkj => absurd (lt_of_le_of_lt hk hkj) (lt_irrefl i)⟩
      unfold OccursAt
      rw [← hl]
      assumption
    · rename_i hnp
      have hl' : t = s.drop (i + 1) := by
        have h1 : s.drop (i + 1) = (s.drop i).drop 1 := by
          rw [List.drop_drop]
        rw [h1, ← hl, List.drop_one, List.tail_cons]
      obtain ⟨ho, hij, hmin⟩ := ih (i + 1) j hl' h
      refine ⟨ho, by omega, ?_⟩
      intro k hk hkj
      rcases Nat.eq_or_lt_of_le hk with hk' | hk'
      · subst hk'
        unfold OccursAt
        rw [← hl]
        simp [hnp]
      · exact hmin k hk' hkj

/-- If the scan starting at index `i` finds nothing, `pat` occurs at no
index `≥ i`. -/
theorem strFindScan_none {s pat : List Char} :
    ∀ (l : List Char) (i : Nat), l = s.drop i → strFindScan pat l i = none →
      ∀ k, i ≤ k → ¬ OccursAt s pat k := by
  intro l
  induction l with
  | nil =>
    intro i hl h k hk
    unfold strFindScan at h
    split at h
    · simp at h
    · rename_i hnp
      have hklen : s.length ≤ i := by
        by_contra hgt
        push_neg at hgt
        have : s.drop i ≠ [] := by
          intro hnil
          have := List.length_drop i s
          rw [hnil] at this
          simp at this
          omega
        exact this hl.symm
      have hdk : s.drop k = [] := List.drop_eq_nil_of_le (by omega)
      unfold OccursAt
      rw [hdk]
      exact hnp
  | cons c t ih =>
    intro i hl h k hk
    unfold strFindScan at h
    split at h
    · simp at h
    · rename_i hnp
      have hl' : t = s.drop (i + 1) := by
        have h1 : s.drop (i + 1) = (s.drop i).drop 1 := by
          rw [List.drop_drop]
        rw [h1, ← hl, List.drop_one, List.tail_cons]
      rcases Nat.eq_or_lt_of_le hk with hk' | hk'
      · subst hk'
        unfold OccursAt
        rw [← hl]
        simp [hnp]
      · exact ih (i + 1) hl' h k hk'

/-- `strFind` finds the first occurrence at or after `i`. -/
theorem strFind_some {s pat : List Char} {i j : Nat} (h : strFind s pat i = some j) :
    OccursAt s pat j ∧ i ≤ j ∧ ∀ k, i ≤ k → k < j → ¬ OccursAt s pat k := by
  unfold strFind at h
  split at h
  · simp at h
  · exact strFindScan_some (s.drop i) i j rfl h

/-- When `strFind` fails, a nonempty pattern occurs at no index `≥ i`. -/
theorem strFind_none {s pat : List Char} {i : Nat} (h : strFind s pat i = none)
    (hpat : pat ≠ []) : ∀ k, i ≤ k → ¬ OccursAt s pat k := by
  unfold strFind at h
  split at h
  · rename_i hlt
    intro k hk hocc
    have := occursAt_lt_length hpat hocc
    omega
  · exact strFindScan_none (s.drop i) i rfl h

/-- The last-occurrence loop returns its accumulator when no occurrence
lies at or after the start position. -/
theorem findLastLoop_no_occ {s pat : List Char} :
    ∀ (fuel start : Nat) (acc : Option Nat),
      (∀ k, start ≤ k → ¬ OccursAt s pat k) →
      findLastLoop s pat fuel start acc = acc := by
  intro fuel
  induction fuel with
  | zero => intro start acc hno; rfl
  | succ n ih =>
    intro start acc hno
    cases hsf : strFind s pat start with
    | none =>
      unfold findLastLoop
      rw [hsf]
    | some i =>
      obtain ⟨ho, hsi, -⟩ := strFind_some hsf
      exact absurd ho (hno i hsi)

/-- With enough fuel, the loop returns the greatest occurrence at or
after the start position. -/
theorem findLastLoop_finds_last {s pat : List Char} (hpat : pat ≠ []) :
    ∀ (fuel start : Nat) (acc : Option Nat) (j : Nat),
      OccursAt s pat j → start ≤ j →
      (∀ k, start ≤ k → OccursAt s pat k → k ≤ j) →
      s.length + 1 - start ≤ fuel →
      findLastLoop s pat fuel start acc = some j := by
  intro fuel
  induction fuel with
  | zero =>
    intro start acc j ho hsj hmax hfuel
    exfalso
    have hj := occursAt_lt_length hpat ho
    omega
  | succ n ih =>
    intro start acc j ho hsj hmax hfuel
    cases hsf : strFind s pat start with
    | none => exact absurd ho (strFind_none hsf hpat j hsj)
    | some i =>
      obtain ⟨hoi, hsi, -⟩ := strFind_some hsf
      have hij : i ≤ j := hmax i hsi hoi
      have hil := occursAt_lt_length hpat hoi
      unfold findLastLoop
      rw [hsf]
      rcases Nat.eq_or_lt_of_le hij with hij' | hlt
      · subst hij'
        apply findLastLoop_no_occ
        intro k hk hoK
        have := hmax k (by omega) hoK
        omega
      · exact ih (i + 1) (some i) j ho (by omega)
          (fun k hk ho' => hmax k (by omega) ho') (by omega)

/-- `findLast` returns the declarative last occurrence. -/
theorem findLast_eq_some {s pat : List Char} (hpat : pat ≠ []) {b : Nat}
    (h : IsLastOcc s pat b) : findLast s pat = some b := by
  obtain ⟨ho, hmax⟩ := h
  unfold findLast
  exact findLastLoop_finds_last hpat (s.length + 1) 0 none b ho (Nat.zero_le b)
    (fun k _ hk => hmax k (le_of_lt (occursAt_lt_length hpat hk)) hk) (by omega)

/-- `findLast` fails when the pattern never occurs. -/
theorem findLast_eq_none {s pat : List Char} (h : ∀ k, ¬ OccursAt s pat k) :
    findLast s pat = none := by
  unfold findLast
  exact findLastLoop_no_occ (s.length + 1) 0 none (fun k _ => h k)

/-- `strFind` computes the declarative first-occurrence-from relation. -/
theorem strFind_of_isFirstOccFrom {s pat : List Char} (hpat : pat ≠ []) {i e : Nat}
    (h : IsFirstOccFrom s pat i e) : strFind s pat i = some e := by
  obtain ⟨ho, hie, hmin⟩ := h
  cases hsf : strFind s pat i with
  | none => exact absurd ho (strFind_none hsf hpat e hie)
  | some d =>
    obtain ⟨hod, hid, hmind⟩ := strFind_some hsf
    have h1 : ¬ e < d := fun hlt => hmind e hie hlt ho
    have h2 : ¬ d < e := fun hlt => hmin d hid hlt hod
    have : d = e := by omega
    rw [this]

/-- A maximal occurrence exists as soon as any occurrence does. -/
theorem exists_isLastOcc {s pat : List Char} (hpat : pat ≠ []) {k : Nat}
    (hk : OccursAt s pat k) : ∃ b, IsLastOcc s pat b := by
  have hkle : k ≤ s.length := le_of_lt (occursAt_lt_length hpat hk)
  refine ⟨Nat.findGreatest (fun j => OccursAt s pat j) s.length, ?_, ?_⟩
  · exact Nat.findGreatest_spec hkle hk
  · intro m hm hocc
    by_contra hgt
    push_neg at hgt
    exact Nat.findGreatest_is_greatest hgt hm hocc

/-! ## Claim C8: the daemon's marker extraction rule -/

/-- C8: for every `player_action` response string, when the response has
a begin marker and an end marker after the last begin marker, the
returned state is the text strictly between the LAST
`<<BEGIN_PLAYER_STATE>>` and the first `<<END_PLAYER_STATE>>` after it,
with surrounding whitespace trimmed; when no such marker pair exists, the
raw model output is returned unchanged. -/
theorem c8_marker_extraction (resp : String) :
    (∀ b e, IsLastOcc resp.toList beginMarker b →
        IsFirstOccFrom resp.toList endMarker (b + beginMarker.length) e →
        extractPlayerState resp =
          String.mk (trimBoth ((resp.toList.drop (b + beginMarker.length)).take
            (e - (b + beginMarker.length))))) ∧
    ((¬ ∃ b e, IsLastOcc resp.toList beginMarker b ∧
        OccursAt resp.toList endMarker e ∧ b + beginMarker.length ≤ e) →
      extractPlayerState resp = resp) := by
  have hbm : beginMarker ≠ [] := by decide
  have hem : endMarker ≠ [] := by decide
  constructor
  · intro b e hlast hfirst
    unfold extractPlayerState
    dsimp only
    rw [findLast_eq_some hbm hlast]
    dsimp only
    rw [strFind_of_isFirstOccFrom hem hfirst]
  · intro hno
    by_cases hex : ∃ k, OccursAt resp.toList beginMarker k
    · obtain ⟨k, hk⟩ := hex
      obtain ⟨b, hb⟩ := exists_isLastOcc hbm hk
      unfold extractPlayerState
      dsimp only
      rw [findLast_eq_some hbm hb]
      dsimp only
      cases hse : strFind resp.toList endMarker (b + beginMarker.length) with
      | none => rfl
      | some e =>
        exfalso
        obtain ⟨hoe, hbe, -⟩ := strFind_some hse
        exact hno ⟨b, e, hb, hoe, hbe⟩
    · push_neg at hex
      unfold extractPlayerState
      dsimp only
      rw [findLast_eq_none hex]

/-- C8 witness: one begin/end pair around `" ok "`; the extraction
returns the trimmed `"ok"`. -/
theorem c8_marker_extraction_witness :
    IsLastOcc "a<<BEGIN_PLAYER_STATE>> ok <<END_PLAYER_STATE>>b".toList beginMarker 1 ∧
    IsFirstOccFrom "a<<BEGIN_PLAYER_STATE>> ok <<END_PLAYER_STATE>>b".toList endMarker
      (1 + beginMarker.length) 27 ∧
    extractPlayerState "a<<BEGIN_PLAYER_STATE>> ok <<END_PLAYER_STATE>>b" = "ok" :=
  ⟨by decide, by decide,
    ((c8_marker_extraction "a<<BEGIN_PLAYER_STATE>> ok <<END_PLAYER_STATE>>b").1 1 27
      (by decide) (by decide)).trans (by decide)⟩
